import Mathlib

/-!
Verification of the image-distribution-operator reconciliation core.

Shallow embedding of the `NodeImage` lifecycle reconciliation engine of
giantswarm/image-distribution-operator (the provider-map based
`NodeImageReconciler` in `internal/controller/image/nodeimage_controller.go`,
the image client in `pkg/image` with the `last-used` mark handling, the
S3 URL helpers in `pkg/s3`, and the vSphere `Exists` check in
`pkg/vsphere/client.go`).

Machine integers do not occur on the modelled paths; time stamps and
durations are modelled as `Nat` (seconds).  Network calls (provider
`Exists`/`Create`/`Delete`, the HTTP `HEAD` probe, the govmomi lookups)
are modelled as oracles passed in as plain functions, with their result
taxonomy taken from the Go signatures.  Persistence writes
(`client.Update`, `client.Status().Update`) are modelled as succeeding:
none of the properties below is about a failing persistence write.
-/

namespace IDO

/-- The `NodeImageState` string enumeration from the API types, together
with the zero value `""` of the Go string type (`unset`), which the
controller uses as the "never reconciled" sentinel. -/
inductive NodeImageState where
  | unset
  | pending
  | uploading
  | available
  | missing
  | error
  | awaitingDeletion
  | deleting
  | deleted
deriving DecidableEq, Repr

/-- The mutable portion of a `NodeImage` object visible to the modelled
code: spec fields `name`/`provider`, the deletion timestamp (as the flag
`IsDeleted` computes from it), the controller finalizer, the status
`state` and `releases`, and the `last-used` timestamp annotation
(`none` = absent or unparseable, `some t` = parses to time `t`). -/
structure NodeImage where
  name : String
  provider : String
  deletionRequested : Bool
  finalizer : Bool
  state : NodeImageState
  releases : List String
  lastUsedAt : Option Nat
deriving DecidableEq, Repr

/-- A provider backend, as the controller sees it through the
`provider.Provider` interface: a set of locations and the outcomes of the
three network operations.  `existsFn name loc` is the result of
`Exists(ctx, name, loc)`; `createFn url name loc = some ()` means
`Create(ctx, url, name, loc)` fails, `none` that it succeeds; likewise
`deleteFn` for `Delete(ctx, name, loc)`. -/
structure Provider where
  locations : List String
  existsFn : String → String → Except Unit Bool
  createFn : String → String → String → Option Unit
  deleteFn : String → String → Option Unit

/-- The reconciler configuration plus the per-invocation environment:
the provider registry (`Providers` map), `ImageRetentionPeriod`, the S3
client fields used by `GetURL`/`ValidURL`, the image-key producer
(`image.GetImageKey`, a pure function of the image's spec `provider` and
`name`; its body is not part of the modelled core, so it is kept
opaque), the outcome of the HTTP `HEAD` probe
(`.error () ` = transport error, `.ok code` = response status code), and
the current wall-clock time `now` (seconds). -/
structure Reconciler where
  providers : String → Option Provider
  imageRetentionPeriod : Nat
  s3Protocol : String
  s3Bucket : String
  s3Region : String
  imageKeyOf : String → String → String
  probe : String → Except Unit Nat
  now : Nat

/-- Everything observable about one `Reconcile` invocation: the record it
leaves behind (`none` when `r.Delete(ctx, nodeImage)` removed it), which
locations had `Provider.Create` invoked, which had `Provider.Delete`
invoked, the returned `RequeueAfter`, and whether a non-nil error was
returned. -/
structure Outcome where
  image : Option NodeImage
  createCalls : List String
  deleteCalls : List String
  requeueAfter : Option Nat
  err : Bool
deriving DecidableEq, Repr

/-- `UpdateStatus`: write-through only when the new state differs from
the current one (the write itself is modelled as succeeding). -/
def UpdateStatus (img : NodeImage) (s : NodeImageState) : NodeImage :=
  if img.state = s then img else { img with state := s }

/-- Result of one `CreateProvider` call: the image as left by its status
updates, whether `Provider.Create` was invoked, and whether the call
returned an error. -/
structure CPResult where
  img : NodeImage
  created : Bool
  failed : Bool
deriving DecidableEq, Repr

/-- `NodeImageReconciler.CreateProvider`: check `Exists` first; on a
lookup error fail; if the image exists set `Available` and stop (no
`Create`); otherwise set `Uploading`, call `Create`, and on success set
`Available`. -/
def CreateProvider (prov : Provider) (img : NodeImage) (url loc : String) :
    CPResult :=
  match prov.existsFn img.name loc with
  | .error _ => ⟨img, false, true⟩
  | .ok true => ⟨UpdateStatus img .available, false, false⟩
  | .ok false =>
    let img1 := UpdateStatus img .uploading
    match prov.createFn url img.name loc with
    | some _ => ⟨img1, true, true⟩
    | none => ⟨UpdateStatus img1 .available, true, false⟩

/-- Result of one `DeleteProvider` call. -/
structure DPResult where
  img : NodeImage
  failed : Bool
deriving DecidableEq, Repr

/-- `NodeImageReconciler.DeleteProvider`: set `Deleting`, call
`Provider.Delete`, and on success set `Deleted`.  `Provider.Delete` is
invoked in both branches. -/
def DeleteProvider (prov : Provider) (img : NodeImage) (loc : String) :
    DPResult :=
  let img1 := UpdateStatus img .deleting
  match prov.deleteFn img.name loc with
  | some _ => ⟨img1, true⟩
  | none => ⟨UpdateStatus img1 .deleted, false⟩

/-- The deletion fan-out of `Reconcile` (`for loc := range
prov.GetLocations()`): on a `DeleteProvider` failure the controller sets
`Error` and returns the error, skipping the remaining locations.
Returns the image, the locations where `Provider.Delete` was invoked,
and the error flag. -/
def deleteLoop (prov : Provider) :
    NodeImage → List String → NodeImage × List String × Bool
  | img, [] => (img, [], false)
  | img, loc :: rest =>
    let d := DeleteProvider prov img loc
    if d.failed then (UpdateStatus d.img .error, [loc], true)
    else
      let r := deleteLoop prov d.img rest
      (r.1, loc :: r.2.1, r.2.2)

/-- Five minutes, the fixed `DefaultRequeue` interval, in seconds. -/
def defaultRequeueAfter : Nat := 5 * 60

/-- `ImageAvailable`: the `HEAD` probe succeeds with a 2xx status. -/
def ImageAvailable (probeResult : Except Unit Nat) : Bool :=
  match probeResult with
  | .error _ => false
  | .ok code => 200 ≤ code && code < 300

/-- The creation fan-out of `Reconcile`: per location, first re-check
`ImageAvailable(url)`; on failure set `Missing` and return the default
requeue with a nil error.  Then `CreateProvider`; on failure set `Error`
and return the error, skipping the remaining locations.  After a full
pass return the default requeue.  Returns image, `Create` call sites,
`RequeueAfter` and the error flag. -/
def createLoop (r : Reconciler) (prov : Provider) (url : String) :
    NodeImage → List String → NodeImage × List String × Option Nat × Bool
  | img, [] => (img, [], some defaultRequeueAfter, false)
  | img, loc :: rest =>
    if ImageAvailable (r.probe url) then
      let c := CreateProvider prov img url loc
      if c.failed then
        (UpdateStatus c.img .error, if c.created then [loc] else [], none, true)
      else
        let res := createLoop r prov url c.img rest
        (res.1, (if c.created then [loc] else []) ++ res.2.1, res.2.2)
    else
      (UpdateStatus img .missing, [], some defaultRequeueAfter, false)

/-! ## S3 URL helpers (`pkg/s3`: `GetURL`, `IsS3URL`, `ValidURL`) -/

/-- `Client.GetURL`: the sprintf
`"%s://%s.s3.%s.amazonaws.com/%s"` over protocol, bucket, region, key. -/
def GetURL (protocol bucket region imageKey : String) : String :=
  protocol ++ "://" ++ bucket ++ ".s3." ++ region ++ ".amazonaws.com/" ++ imageKey

/-- A character of the Go regexp class `[a-zA-Z0-9-]`. -/
def bucketChar (c : Char) : Bool :=
  c.isAlpha || c.isDigit || c == '-'

/-- A character of the Go regexp class `[a-z0-9-]`. -/
def regionChar (c : Char) : Bool :=
  c.isLower || c.isDigit || c == '-'

/-- Strip a literal prefix from a character list, or fail. -/
def stripLit : List Char → List Char → Option (List Char)
  | [], s => some s
  | _ :: _, [] => none
  | p :: ps, c :: cs => if c = p then stripLit ps cs else none

/-- The final `.+` of the bucket-URL regexp: since the pattern is
unanchored on the right, it only requires one character after the
slash, and `.` matches any character except a newline. -/
def matchKey : List Char → Bool
  | [] => false
  | c :: _ => c != '\n'

/-- The `[a-z0-9-]+\.amazonaws\.com/.+` tail of the bucket-URL regexp. -/
def matchAfterBucket (rest2 : List Char) : Bool :=
  match stripLit ".amazonaws.com/".data (rest2.dropWhile regionChar) with
  | none => false
  | some rest3 => !(rest2.takeWhile regionChar).isEmpty && matchKey rest3

/-- The `[a-zA-Z0-9-]+\.s3\....` part of the bucket-URL regexp, after
the protocol prefix has been stripped. -/
def matchAfterProtocol (rest : List Char) : Bool :=
  match stripLit ".s3.".data (rest.dropWhile bucketChar) with
  | none => false
  | some rest2 => !(rest.takeWhile bucketChar).isEmpty && matchAfterBucket rest2

/-- Matcher for the anchored Go regexp
`^P://[a-zA-Z0-9-]+\.s3\.[a-z0-9-]+\.amazonaws\.com/.+`
(P the literal protocol, as built by `Client.IsS3URL`).  Because `.` does
not occur in either character class, every `+`-run is forced to be the
maximal run (a shorter run would have to be followed by a literal `.`
but is followed by another class character), so `regexp.MatchString`
succeeds iff this greedy scan succeeds. -/
def matchS3 (protocol : String) (s : List Char) : Bool :=
  match stripLit (protocol.data ++ "://".data) s with
  | none => false
  | some rest => matchAfterProtocol rest

/-- `Client.IsS3URL`: match the URL against the bucket-URL regexp. -/
def IsS3URL (protocol url : String) : Bool :=
  matchS3 protocol url.data

/-- `Client.ValidURL`: empty URLs and URLs that are not S3 bucket URLs
are rejected; `none` is Go's `nil` error. -/
def ValidURL (protocol url : String) : Option String :=
  if url = "" then some "URL is empty"
  else if !(IsS3URL protocol url) then some "URL is not an S3 bucket"
  else none

/-! ## The `Reconcile` entry point (provider-map based controller) -/

/-- The deletion branch of `Reconcile` (deletion timestamp set): if the
provider is not configured, skip the delete calls and remove the
finalizer; otherwise fan out `DeleteProvider` over the locations, on a
failure set `Error` and return the error, else remove the finalizer. -/
def reconcileDeletion (r : Reconciler) (img : NodeImage) : Outcome :=
  match r.providers img.provider with
  | none =>
    { image := some { img with finalizer := false }, createCalls := [],
      deleteCalls := [], requeueAfter := none, err := false }
  | some prov =>
    let res := deleteLoop prov img prov.locations
    if res.2.2 then
      { image := some res.1, createCalls := [], deleteCalls := res.2.1,
        requeueAfter := none, err := true }
    else
      { image := some { res.1 with finalizer := false }, createCalls := [],
        deleteCalls := res.2.1, requeueAfter := none, err := false }

/-- The non-deletion remainder of `Reconcile`, after the finalizer has
been ensured: the `AwaitingDeletion` retention check, the
empty-`releases` branch guarded by `state != ""`, URL construction and
validation, provider lookup, and the per-location creation fan-out. -/
def reconcileLive (r : Reconciler) (img : NodeImage) : Outcome :=
  if img.state = .awaitingDeletion ∧ img.lastUsedAt.isSome then
    let t := img.lastUsedAt.getD 0
    let expiration := t + r.imageRetentionPeriod
    if expiration < r.now then
      { image := none, createCalls := [], deleteCalls := [],
        requeueAfter := none, err := false }
    else
      { image := some img, createCalls := [], deleteCalls := [],
        requeueAfter := some (expiration - r.now), err := false }
  else if img.releases = [] ∧ img.state ≠ .unset then
    if 0 < r.imageRetentionPeriod then
      let img1 := { img with lastUsedAt := some r.now }
      { image := some (UpdateStatus img1 .awaitingDeletion), createCalls := [],
        deleteCalls := [], requeueAfter := some r.imageRetentionPeriod,
        err := false }
    else
      { image := none, createCalls := [], deleteCalls := [],
        requeueAfter := none, err := false }
  else
    let url := GetURL r.s3Protocol r.s3Bucket r.s3Region
      (r.imageKeyOf img.provider img.name)
    if (ValidURL r.s3Protocol url).isSome then
      { image := some img, createCalls := [], deleteCalls := [],
        requeueAfter := none, err := true }
    else
      match r.providers img.provider with
      | none =>
        { image := some (UpdateStatus img .error), createCalls := [],
          deleteCalls := [], requeueAfter := none, err := false }
      | some prov =>
        let res := createLoop r prov url img prov.locations
        { image := some res.1, createCalls := res.2.1, deleteCalls := [],
          requeueAfter := res.2.2.1, err := res.2.2.2 }

/-- `NodeImageReconciler.Reconcile` for a fetched `NodeImage`: branch on
the deletion timestamp, otherwise ensure the finalizer and run the live
path. -/
def reconcile (r : Reconciler) (img : NodeImage) : Outcome :=
  if img.deletionRequested then reconcileDeletion r img
  else reconcileLive r { img with finalizer := true }

/-! ## Image client (`pkg/image`): reference add/remove -/

/-- `Client.AddReleaseToNodeImageStatus` (the `last-used` aware variant),
for an existing record: if the configured release is already listed,
no-op; otherwise append it, and when the state is `""` or
`AwaitingDeletion`, set it to `Pending` and remove the `last-used`
annotation (the Go code deletes the key only if present, which leaves
the same record). -/
def AddReleaseToNodeImageStatus (rel : String) (img : NodeImage) : NodeImage :=
  if rel ∈ img.releases then img
  else
    let img1 := { img with releases := img.releases ++ [rel] }
    if img1.state = .unset ∨ img1.state = .awaitingDeletion then
      { img1 with state := .pending, lastUsedAt := none }
    else img1

/-- `Client.RemoveImage` (the release controller's removal entry point):
`none` in = record absent (`IsNotFound` → return nil, a no-op success).
Otherwise remove the first occurrence of the configured release from the
list; if releases remain, update the record, else delete the object
(`none` out). -/
def RemoveImage (rel : String) (record : Option NodeImage) : Option NodeImage :=
  match record with
  | none => none
  | some img =>
    let releases' := img.releases.erase rel
    if 0 < releases'.length then some { img with releases := releases' }
    else none

/-! ## vSphere client: `Exists` (`pkg/vsphere/client.go`) -/

/-- Failure taxonomy of the govmomi `finder.VirtualMachine` lookup: the
first-class not-found outcome versus any other failure (auth, network,
ambiguous result). -/
inductive VMLookupErr where
  | notFound
  | other
deriving DecidableEq, Repr

/-- The vSphere backend as `Client.Exists` consults it: the outcome of
datacenter resolution per location, and the outcome of the virtual
machine lookup at `GetVMPath(name, loc)`. -/
structure VsphereBackend where
  datacenterOf : String → Except Unit Unit
  vmLookup : String → String → Except VMLookupErr Unit

/-- `vsphere.Client.Exists(ctx, name, loc)`: errors of datacenter
resolution are surfaced; after that, the code is `_, err =
finder.VirtualMachine(...); if err != nil { return false, nil }` — every
lookup failure, of either kind, yields `(false, nil)`. -/
def VsphereExists (b : VsphereBackend) (name loc : String) : Except Unit Bool :=
  match b.datacenterOf loc with
  | .error _ => .error ()
  | .ok _ =>
    match b.vmLookup name loc with
    | .error _ => .ok false
    | .ok _ => .ok true

/-! ## Concrete instances used by witnesses and counterexamples -/

/-- A two-location provider whose backend delete fails at `l1` and
succeeds at `l2`; lookups report absence and uploads succeed. -/
def provTwoLoc : Provider :=
  { locations := ["l1", "l2"],
    existsFn := fun _ _ => .ok false,
    createFn := fun _ _ _ => none,
    deleteFn := fun _ loc => if loc = "l1" then some () else none }

/-- A reconciler with `provTwoLoc` registered under the `capv` tag,
no retention, and a probe that always reports HTTP 200. -/
def sysTwoLoc : Reconciler :=
  { providers := fun p => if p = "capv" then some provTwoLoc else none,
    imageRetentionPeriod := 0,
    s3Protocol := "https",
    s3Bucket := "test-bucket",
    s3Region := "eu-west-1",
    imageKeyOf := fun p n => p ++ "/" ++ n,
    probe := fun _ => .ok 200,
    now := 100 }

/-- A deletion-requested image owned by `capv`. -/
def imgDeleting : NodeImage :=
  { name := "img", provider := "capv", deletionRequested := true,
    finalizer := true, state := .available, releases := [],
    lastUsedAt := none }

/-- `sysTwoLoc` with a one-hour retention period. -/
def sysRetain : Reconciler :=
  { sysTwoLoc with imageRetentionPeriod := 3600 }

/-- A deletion-requested image that was in `AwaitingDeletion` with the
`last-used` mark set when its deletion began. -/
def imgRetainDel : NodeImage :=
  { imgDeleting with state := .awaitingDeletion, lastUsedAt := some 0 }

/-- The record `reconcile sysRetain imgRetainDel` leaves behind. -/
def imgRetainDelAfter : NodeImage :=
  { imgDeleting with state := .error, lastUsedAt := some 0 }

/-- A live image in `AwaitingDeletion` with the `last-used` mark set. -/
def imgAwaiting : NodeImage :=
  { name := "img", provider := "capv", deletionRequested := false,
    finalizer := true, state := .awaitingDeletion, releases := [],
    lastUsedAt := some 5 }

/-- A live, referenced image in `Pending`. -/
def imgLive : NodeImage :=
  { name := "img", provider := "capv", deletionRequested := false,
    finalizer := true, state := .pending, releases := ["v1.0.0"],
    lastUsedAt := none }

/-- A never-reconciled record: empty state sentinel, no releases. -/
def imgFresh : NodeImage :=
  { name := "img", provider := "capv", deletionRequested := false,
    finalizer := false, state := .unset, releases := [],
    lastUsedAt := none }

/-- A record referenced by exactly one release. -/
def imgSingleRef : NodeImage :=
  { imgLive with releases := ["v1.0.0"] }

/-- A record referenced by two releases. -/
def imgTwoRefs : NodeImage :=
  { imgLive with releases := ["v1.0.0", "v1.1.0"] }

/-- A two-location provider whose upload fails at `l1`. -/
def provCreateFail : Provider :=
  { locations := ["l1", "l2"],
    existsFn := fun _ _ => .ok false,
    createFn := fun _ _ loc => if loc = "l1" then some () else none,
    deleteFn := fun _ _ => none }

/-- A two-location provider whose backend operations succeed at `l1`
but whose delete and upload both fail at the second location `l2`. -/
def provFailSecond : Provider :=
  { locations := ["l1", "l2"],
    existsFn := fun _ _ => .ok false,
    createFn := fun _ _ loc => if loc = "l2" then some () else none,
    deleteFn := fun _ loc => if loc = "l2" then some () else none }

/-- `sysTwoLoc` with `provFailSecond` registered under `capv`. -/
def sysFailSecond : Reconciler :=
  { sysTwoLoc with providers := fun p =>
      if p = "capv" then some provFailSecond else none }

/-- A one-location provider whose lookup reports the image present. -/
def provExists : Provider :=
  { locations := ["l1"],
    existsFn := fun _ _ => .ok true,
    createFn := fun _ _ _ => none,
    deleteFn := fun _ _ => none }

/-- `sysTwoLoc` with `provExists` registered under `capv`. -/
def sysExists : Reconciler :=
  { sysTwoLoc with providers := fun p =>
      if p = "capv" then some provExists else none }

/-- `sysTwoLoc` with a probe that reports HTTP 404. -/
def sysProbeFail : Reconciler :=
  { sysTwoLoc with probe := fun _ => .ok 404 }

/-- A previously-available image that no release references any more. -/
def imgUnref : NodeImage :=
  { imgLive with releases := [], state := .available }

/-- A vSphere backend whose datacenter resolution succeeds but whose VM
lookup fails with a non-not-found failure (e.g. a network error). -/
def vsFlaky : VsphereBackend :=
  { datacenterOf := fun _ => .ok (),
    vmLookup := fun _ _ => .error .other }

/-- The `last-used` invariant claimed by the specification: the mark is
set exactly on images awaiting deletion under a configured (positive)
retention period. -/
def lastUsedInv (r : Reconciler) (img : NodeImage) : Prop :=
  img.lastUsedAt ≠ none ↔
    (img.state = .awaitingDeletion ∧ 0 < r.imageRetentionPeriod)

instance (r : Reconciler) (img : NodeImage) : Decidable (lastUsedInv r img) := by
  unfold lastUsedInv
  infer_instance

/-! ## Helper lemmas -/

@[simp]
theorem UpdateStatus_state (img : NodeImage) (s : NodeImageState) :
    (UpdateStatus img s).state = s := by
  unfold UpdateStatus
  split <;> simp_all

@[simp]
theorem UpdateStatus_name (img : NodeImage) (s : NodeImageState) :
    (UpdateStatus img s).name = img.name := by
  unfold UpdateStatus
  split <;> rfl

@[simp]
theorem UpdateStatus_lastUsedAt (img : NodeImage) (s : NodeImageState) :
    (UpdateStatus img s).lastUsedAt = img.lastUsedAt := by
  unfold UpdateStatus
  split <;> rfl

@[simp]
theorem UpdateStatus_releases (img : NodeImage) (s : NodeImageState) :
    (UpdateStatus img s).releases = img.releases := by
  unfold UpdateStatus
  split <;> rfl

@[simp]
theorem UpdateStatus_provider (img : NodeImage) (s : NodeImageState) :
    (UpdateStatus img s).provider = img.provider := by
  unfold UpdateStatus
  split <;> rfl

theorem CreateProvider_img_name (prov : Provider) (img : NodeImage)
    (url loc : String) :
    (CreateProvider prov img url loc).img.name = img.name := by
  unfold CreateProvider
  cases h : prov.existsFn img.name loc with
  | error e => simp
  | ok b =>
    cases b with
    | true => simp
    | false =>
      cases hc : prov.createFn url img.name loc with
      | none => simp
      | some u => simp

theorem CreateProvider_img_lastUsedAt (prov : Provider) (img : NodeImage)
    (url loc : String) :
    (CreateProvider prov img url loc).img.lastUsedAt = img.lastUsedAt := by
  unfold CreateProvider
  cases h : prov.existsFn img.name loc with
  | error e => simp
  | ok b =>
    cases b with
    | true => simp
    | false =>
      cases hc : prov.createFn url img.name loc with
      | none => simp
      | some u => simp

/-- `Provider.Create` is only invoked after `Exists` returned `ok false`. -/
theorem CreateProvider_created_exists (prov : Provider) (img : NodeImage)
    (url loc : String)
    (h : (CreateProvider prov img url loc).created = true) :
    prov.existsFn img.name loc = .ok false := by
  unfold CreateProvider at h
  cases he : prov.existsFn img.name loc with
  | error e => rw [he] at h; simp at h
  | ok b =>
    cases b with
    | true => rw [he] at h; simp at h
    | false => rfl

/-- A `CreateProvider` call that returns no error leaves the state
`Available`. -/
theorem CreateProvider_ok_state (prov : Provider) (img : NodeImage)
    (url loc : String)
    (h : (CreateProvider prov img url loc).failed = false) :
    (CreateProvider prov img url loc).img.state = .available := by
  unfold CreateProvider at h ⊢
  cases he : prov.existsFn img.name loc with
  | error e => rw [he] at h; simp at h
  | ok b =>
    cases b with
    | true => simp
    | false =>
      cases hc : prov.createFn url img.name loc with
      | none => simp
      | some u => rw [he, hc] at h; simp at h

/-- Every location where the creation fan-out invoked `Provider.Create`
satisfied `Exists = ok false` at the moment of the call. -/
theorem createLoop_calls_exists_false (r : Reconciler) (prov : Provider)
    (url : String) :
    ∀ (locs : List String) (img : NodeImage) (l : String),
      l ∈ (createLoop r prov url img locs).2.1 →
      prov.existsFn img.name l = .ok false := by
  intro locs
  induction locs with
  | nil => intro img l hl; simp [createLoop] at hl
  | cons loc rest ih =>
    intro img l hl
    unfold createLoop at hl
    by_cases hav : ImageAvailable (r.probe url) = true
    · rw [if_pos hav] at hl
      by_cases hf : (CreateProvider prov img url loc).failed = true
      · rw [if_pos hf] at hl
        simp only at hl
        by_cases hcr : (CreateProvider prov img url loc).created = true
        · rw [if_pos hcr] at hl
          simp at hl
          rw [hl]
          exact CreateProvider_created_exists prov img url loc hcr
        · rw [if_neg hcr] at hl
          simp at hl
      · rw [if_neg hf] at hl
        simp only [List.mem_append] at hl
        rcases hl with hl | hl
        · by_cases hcr : (CreateProvider prov img url loc).created = true
          · rw [if_pos hcr] at hl
            simp at hl
            rw [hl]
            exact CreateProvider_created_exists prov img url loc hcr
          · rw [if_neg hcr] at hl
            simp at hl
        · have := ih (CreateProvider prov img url loc).img l hl
          rwa [CreateProvider_img_name] at this
    · rw [if_neg hav] at hl
      simp at hl

/-- The creation fan-out never touches the `last-used` annotation. -/
theorem createLoop_lastUsedAt (r : Reconciler) (prov : Provider)
    (url : String) :
    ∀ (locs : List String) (img : NodeImage),
      (createLoop r prov url img locs).1.lastUsedAt = img.lastUsedAt := by
  intro locs
  induction locs with
  | nil => intro img; simp [createLoop]
  | cons loc rest ih =>
    intro img
    unfold createLoop
    by_cases hav : ImageAvailable (r.probe url) = true
    · rw [if_pos hav]
      by_cases hf : (CreateProvider prov img url loc).failed = true
      · rw [if_pos hf]
        simp [CreateProvider_img_lastUsedAt]
      · rw [if_neg hf]
        simp only
        rw [ih, CreateProvider_img_lastUsedAt]
    · rw [if_neg hav]
      simp

/-- The creation fan-out only ever writes the states `Missing`,
`Error`, `Uploading` and `Available`; it never produces
`AwaitingDeletion`. -/
theorem createLoop_state_ne_awaiting (r : Reconciler) (prov : Provider)
    (url : String) :
    ∀ (locs : List String) (img : NodeImage),
      img.state ≠ .awaitingDeletion →
      (createLoop r prov url img locs).1.state ≠ .awaitingDeletion := by
  intro locs
  induction locs with
  | nil => intro img h; simpa [createLoop] using h
  | cons loc rest ih =>
    intro img h
    unfold createLoop
    by_cases hav : ImageAvailable (r.probe url) = true
    · rw [if_pos hav]
      by_cases hf : (CreateProvider prov img url loc).failed = true
      · rw [if_pos hf]
        simp
      · rw [if_neg hf]
        simp only
        apply ih
        rw [CreateProvider_ok_state prov img url loc (by simpa using hf)]
        simp
    · rw [if_neg hav]
      simp

theorem DeleteProvider_img_name (prov : Provider) (img : NodeImage)
    (loc : String) :
    (DeleteProvider prov img loc).img.name = img.name := by
  unfold DeleteProvider
  cases h : prov.deleteFn img.name loc <;> simp

/-- The deletion fan-out, run over a location list whose first failing
location is `l` (every location of `pre` before it succeeds), invokes
`Provider.Delete` exactly on `pre ++ [l]` — skipping everything after
`l` — reports the error, and leaves the state `Error`. -/
theorem deleteLoop_fail_at (prov : Provider) (l : String)
    (rest : List String) :
    ∀ (pre : List String) (img : NodeImage),
      (∀ p ∈ pre, prov.deleteFn img.name p = none) →
      prov.deleteFn img.name l = some () →
      (deleteLoop prov img (pre ++ l :: rest)).2.1 = pre ++ [l] ∧
      (deleteLoop prov img (pre ++ l :: rest)).2.2 = true ∧
      (deleteLoop prov img (pre ++ l :: rest)).1.state = .error := by
  intro pre
  induction pre with
  | nil =>
    intro img hpre hl
    have hd : (DeleteProvider prov img l).failed = true := by
      unfold DeleteProvider
      dsimp only
      rw [hl]
    simp only [List.nil_append]
    unfold deleteLoop
    rw [if_pos hd]
    exact ⟨rfl, rfl, by simp⟩
  | cons p ps ih =>
    intro img hpre hl
    have hp : prov.deleteFn img.name p = none := hpre p (by simp)
    have hd : (DeleteProvider prov img p).failed = false := by
      unfold DeleteProvider
      dsimp only
      rw [hp]
    have hname := DeleteProvider_img_name prov img p
    obtain ⟨h1, h2, h3⟩ := ih (DeleteProvider prov img p).img
      (by
        intro q hq
        rw [hname]
        exact hpre q (by simp [hq]))
      (by rw [hname]; exact hl)
    simp only [List.cons_append]
    unfold deleteLoop
    rw [if_neg (by simp [hd])]
    dsimp only
    refine ⟨?_, h2, h3⟩
    rw [h1]

/-- The creation fan-out, run over a location list whose first failing
location is `l` (each location of `pre` before it either already has
the image or uploads successfully), makes its `Create` calls only
within `pre` and at `l` itself — skipping everything after `l` —
reports the error, and leaves the state `Error`. -/
theorem createLoop_fail_at (r : Reconciler) (prov : Provider)
    (url : String) (l : String) (rest : List String)
    (hav : ImageAvailable (r.probe url) = true) :
    ∀ (pre : List String) (img : NodeImage),
      (∀ p ∈ pre, prov.existsFn img.name p = .ok true ∨
        (prov.existsFn img.name p = .ok false ∧
          prov.createFn url img.name p = none)) →
      prov.existsFn img.name l = .ok false →
      prov.createFn url img.name l = some () →
      ∃ callsPre, callsPre ⊆ pre ∧
        (createLoop r prov url img (pre ++ l :: rest)).2.1 =
          callsPre ++ [l] ∧
        (createLoop r prov url img (pre ++ l :: rest)).2.2.2 = true ∧
        (createLoop r prov url img (pre ++ l :: rest)).1.state = .error := by
  intro pre
  induction pre with
  | nil =>
    intro img hpre hexl hcrl
    have hc : CreateProvider prov img url l =
        ⟨UpdateStatus img .uploading, true, true⟩ := by
      unfold CreateProvider
      rw [hexl]
      dsimp only
      rw [hcrl]
    refine ⟨[], by simp, ?_, ?_, ?_⟩ <;>
      simp [createLoop, hav, hc]
  | cons p ps ih =>
    intro img hpre hexl hcrl
    have hname := CreateProvider_img_name prov img url p
    obtain ⟨cp, hsub, h1, h2, h3⟩ := ih (CreateProvider prov img url p).img
      (by
        intro q hq
        rw [hname]
        exact hpre q (by simp [hq]))
      (by rw [hname]; exact hexl)
      (by rw [hname]; exact hcrl)
    rcases hpre p (by simp) with hpt | ⟨hpf, hpc⟩
    · have hc : CreateProvider prov img url p =
          ⟨UpdateStatus img .available, false, false⟩ := by
        unfold CreateProvider
        rw [hpt]
      rw [hc] at h1 h2 h3
      refine ⟨cp, fun x hx => List.mem_cons_of_mem p (hsub hx), ?_, ?_, ?_⟩ <;>
        simp [createLoop, hav, hc, h1, h2, h3]
    · have hc : CreateProvider prov img url p =
          ⟨UpdateStatus (UpdateStatus img .uploading) .available,
            true, false⟩ := by
        unfold CreateProvider
        rw [hpf]
        dsimp only
        rw [hpc]
      rw [hc] at h1 h2 h3
      refine ⟨p :: cp, ?_, ?_, ?_, ?_⟩
      · intro x hx
        rcases List.mem_cons.mp hx with hx | hx
        · simp [hx]
        · exact List.mem_cons_of_mem p (hsub hx)
      · simp [createLoop, hav, hc, h1]
      · simp [createLoop, hav, hc, h2]
      · simp [createLoop, hav, hc, h3]

/-- `Reconcile` either makes no `Create` calls at all, or its `Create`
calls are exactly those of the creation fan-out run against the
configured provider. -/
theorem reconcile_createCalls_cases (r : Reconciler) (img : NodeImage) :
    (reconcile r img).createCalls = [] ∨
    ∃ prov, r.providers img.provider = some prov ∧
      (reconcile r img).createCalls =
        (createLoop r prov
          (GetURL r.s3Protocol r.s3Bucket r.s3Region
            (r.imageKeyOf img.provider img.name))
          { img with finalizer := true } prov.locations).2.1 := by
  unfold reconcile
  by_cases hdel : img.deletionRequested = true
  · left
    rw [if_pos hdel]
    unfold reconcileDeletion
    cases hp : r.providers img.provider with
    | none => rfl
    | some p =>
      dsimp only
      split <;> rfl
  · rw [if_neg hdel]
    unfold reconcileLive
    dsimp only
    split
    · left
      split <;> rfl
    · split
      · left
        split <;> rfl
      · split
        · left
          rfl
        · cases hp : r.providers img.provider with
          | none => left; rfl
          | some p =>
            right
            exact ⟨p, rfl, rfl⟩

theorem stripLit_append (p s : List Char) : stripLit p (p ++ s) = some s := by
  induction p with
  | nil => rfl
  | cons c cs ih => simp [stripLit, ih]

/-- Splitting a list at the first character that leaves the class `p`:
a run of class characters followed by a non-class character is exactly
what `takeWhile`/`dropWhile` separate. -/
theorem run_split (p : Char → Bool) (c : Char) (hc : p c = false) :
    ∀ (l1 l2 : List Char), l1.all p = true →
      (l1 ++ c :: l2).takeWhile p = l1 ∧ (l1 ++ c :: l2).dropWhile p = c :: l2 := by
  intro l1
  induction l1 with
  | nil =>
    intro l2 _
    constructor
    · simp [List.takeWhile_cons, hc]
    · simp [List.dropWhile_cons, hc]
  | cons a l ih =>
    intro l2 h
    simp only [List.all_cons, Bool.and_eq_true] at h
    have hrec := ih l2 h.2
    constructor
    · simp [List.takeWhile_cons, h.1, hrec.1]
    · simp [List.dropWhile_cons, h.1, hrec.2]

/-- The URL built by `GetURL` from a regexp-conforming bucket and region
and a key whose first character exists and is not a newline matches the
`IsS3URL` bucket-URL regexp. -/
theorem matchS3_GetURL (protocol bucket region key : String)
    (hball : bucket.data.all bucketChar = true) (hb : bucket.data ≠ [])
    (hrall : region.data.all regionChar = true) (hr : region.data ≠ [])
    (hk : matchKey key.data = true) :
    matchS3 protocol (GetURL protocol bucket region key).data = true := by
  have hdata : (GetURL protocol bucket region key).data =
      (protocol.data ++ "://".data) ++
        (bucket.data ++ ('.' :: ("s3.".data ++
          (region.data ++ ('.' :: ("amazonaws.com/".data ++ key.data)))))) := by
    simp [GetURL, String.data_append]
  unfold matchS3
  rw [hdata, stripLit_append]
  show matchAfterProtocol _ = true
  unfold matchAfterProtocol
  obtain ⟨ht, hd⟩ := run_split bucketChar '.' (by decide) bucket.data
    ("s3.".data ++ (region.data ++ ('.' :: ("amazonaws.com/".data ++ key.data))))
    hball
  rw [ht, hd]
  have hstrip : stripLit ".s3.".data
      ('.' :: ("s3.".data ++
        (region.data ++ ('.' :: ("amazonaws.com/".data ++ key.data))))) =
      some (region.data ++ ('.' :: ("amazonaws.com/".data ++ key.data))) := by
    show stripLit ('.' :: "s3.".data) _ = _
    simp [stripLit, stripLit_append]
  rw [hstrip]
  show (!bucket.data.isEmpty && matchAfterBucket _) = true
  unfold matchAfterBucket
  obtain ⟨ht2, hd2⟩ := run_split regionChar '.' (by decide) region.data
    ("amazonaws.com/".data ++ key.data) hrall
  rw [ht2, hd2]
  have hstrip2 : stripLit ".amazonaws.com/".data
      ('.' :: ("amazonaws.com/".data ++ key.data)) = some key.data := by
    show stripLit ('.' :: "amazonaws.com/".data) _ = _
    simp [stripLit, stripLit_append]
  rw [hstrip2]
  simp [List.isEmpty_iff, hb, hr, hk]

/-! ## Claim C5 -/

/-- Claim C5: for every image in state `AwaitingDeletion`, adding a
reference for a consumer not already listed appends the consumer to the
releases set, transitions the state back to `Pending`, and clears the
`last-used` annotation, cancelling the pending retention/deletion. -/
theorem c5_add_reference_cancels_deletion (img : NodeImage) (rel : String)
    (hst : img.state = .awaitingDeletion) (hnew : rel ∉ img.releases) :
    AddReleaseToNodeImageStatus rel img =
      { img with releases := img.releases ++ [rel], state := .pending,
                 lastUsedAt := none } := by
  unfold AddReleaseToNodeImageStatus
  rw [if_neg hnew]
  simp [hst]

/-- Witness for C5 at a concrete awaiting-deletion image. -/
theorem c5_add_reference_cancels_deletion_witness :
    AddReleaseToNodeImageStatus "v2.0.0" imgAwaiting =
      { imgAwaiting with releases := imgAwaiting.releases ++ ["v2.0.0"],
                         state := .pending, lastUsedAt := none } :=
  c5_add_reference_cancels_deletion imgAwaiting "v2.0.0" (by decide) (by decide)

/-! ## Claim C6 -/

/-- Claim C6 counterexample: `RemoveImage` does delete the record
itself.  For the record `imgSingleRef`, whose releases set is exactly
the removed consumer, `RemoveImage` deletes the object (`none`) instead
of only updating the releases set and leaving deletion to the retention
timer, contradicting the claim that the removal entry point never
deletes the record. -/
theorem c6_remove_reference_counterexample :
    imgSingleRef.releases = ["v1.0.0"] ∧
    RemoveImage "v1.0.0" (some imgSingleRef) = none := by
  decide

/-- Claim C6 (amended): `RemoveImage` is a no-op success when the record
is absent and removes the consumer from the releases set, but when the
removal leaves the set empty it deletes the record itself rather than
deferring the decision to the retention timer. -/
theorem c6_remove_reference_behavior (rel : String) :
    RemoveImage rel none = none ∧
    (∀ img : NodeImage, 0 < (img.releases.erase rel).length →
      RemoveImage rel (some img) =
        some { img with releases := img.releases.erase rel }) ∧
    (∀ img : NodeImage, (img.releases.erase rel).length = 0 →
      RemoveImage rel (some img) = none) := by
  refine ⟨rfl, ?_, ?_⟩ <;> intro img h <;> simp [RemoveImage, h]

/-- Witness for the amended C6: both live branches at concrete records. -/
theorem c6_remove_reference_behavior_witness :
    RemoveImage "v1.0.0" (some imgTwoRefs) =
      some { imgTwoRefs with releases := imgTwoRefs.releases.erase "v1.0.0" } ∧
    RemoveImage "v1.0.0" (some imgSingleRef) = none :=
  ⟨(c6_remove_reference_behavior "v1.0.0").2.1 imgTwoRefs (by decide),
   (c6_remove_reference_behavior "v1.0.0").2.2 imgSingleRef (by decide)⟩

/-! ## Claim C7 -/

/-- Claim C7 counterexample: a VM lookup failure that is not a
first-class not-found (here `VMLookupErr.other`, e.g. a network or auth
failure) is reported by `vsphere.Client.Exists` as `(false, nil)`, not
as an error, contradicting the claim that any non-not-found failure
surfaces as an error. -/
theorem c7_exists_counterexample :
    vsFlaky.vmLookup "img" "l1" = .error .other ∧
    VsphereExists vsFlaky "img" "l1" = .ok false := by
  constructor <;> rfl

/-- Claim C7 (amended): `Exists` returns an error exactly when
datacenter resolution fails; after that, every failure of the VM lookup
— the first-class not-found and any other failure alike — yields
`(false, nil)`, and a successful lookup yields `(true, nil)`. -/
theorem c7_exists_error_collapse (b : VsphereBackend) (name loc : String) :
    (b.datacenterOf loc = .error () →
      VsphereExists b name loc = .error ()) ∧
    (b.datacenterOf loc = .ok () → ∀ e : VMLookupErr,
      b.vmLookup name loc = .error e →
      VsphereExists b name loc = .ok false) ∧
    (b.datacenterOf loc = .ok () → b.vmLookup name loc = .ok () →
      VsphereExists b name loc = .ok true) := by
  refine ⟨?_, ?_, ?_⟩
  · intro h
    unfold VsphereExists
    rw [h]
  · intro h e he
    unfold VsphereExists
    rw [h, he]
  · intro h hv
    unfold VsphereExists
    rw [h, hv]

/-- Witness for the amended C7 at the concrete flaky backend. -/
theorem c7_exists_error_collapse_witness :
    VsphereExists vsFlaky "img" "loc-a" = .ok false :=
  (c7_exists_error_collapse vsFlaky "img" "loc-a").2.1 rfl .other rfl

/-! ## Claim C10 -/

/-- Claim C10 counterexample: the key `"\n"` is non-empty, the bucket
`"b"` and region `"r"` conform to the regexp classes, yet
`ValidURL (GetURL "\n")` is an error: Go's `.` does not match a
newline, so the final `.+` of the bucket-URL regexp fails on a key
starting with a newline. -/
theorem c10_roundtrip_counterexample :
    ("\n" : String) ≠ "" ∧
    "b".data.all bucketChar = true ∧
    "r".data.all regionChar = true ∧
    ValidURL "https" (GetURL "https" "b" "r" "\n") ≠ none := by
  decide

/-- Claim C10 (amended): for every non-empty `imageKey` whose first
character is not a newline, and any client whose bucket name matches
`[a-zA-Z0-9-]+`, whose region matches `[a-z0-9-]+` and whose protocol is
`http` or `https` (the only two the client constructor produces),
`ValidURL (GetURL imageKey)` returns nil. -/
theorem c10_geturl_validurl_roundtrip (protocol bucket region key : String)
    (_ : protocol = "http" ∨ protocol = "https")
    (hb : bucket ≠ "") (hball : bucket.data.all bucketChar = true)
    (hr : region ≠ "") (hrall : region.data.all regionChar = true)
    (hk : key ≠ "") (hknl : key.data.head? ≠ some '\n') :
    ValidURL protocol (GetURL protocol bucket region key) = none := by
  have hbd : bucket.data ≠ [] := by
    intro h
    exact hb (by cases bucket; simp_all)
  have hrd : region.data ≠ [] := by
    intro h
    exact hr (by cases region; simp_all)
  have hkd : matchKey key.data = true := by
    cases hkey : key.data with
    | nil => exact absurd (by cases key; simp_all) hk
    | cons c cs =>
      rw [hkey] at hknl
      simp only [List.head?] at hknl
      have : c ≠ '\n' := by
        intro hcn
        exact hknl (by rw [hcn])
      simpa [matchKey] using this
  have hne : GetURL protocol bucket region key ≠ "" := by
    intro h
    have hd := congrArg String.data h
    simp [GetURL, String.data_append] at hd
  have hm : IsS3URL protocol (GetURL protocol bucket region key) = true :=
    matchS3_GetURL protocol bucket region key hball hbd hrall hrd hkd
  unfold ValidURL
  rw [if_neg hne]
  rw [IsS3URL] at hm
  simp [IsS3URL, hm]

/-- Witness for the amended C10 at a concrete bucket, region and key. -/
theorem c10_geturl_validurl_roundtrip_witness :
    ValidURL "https" (GetURL "https" "test-bucket" "eu-west-1"
      "capv/node-image/flatcar.ova") = none :=
  c10_geturl_validurl_roundtrip "https" "test-bucket" "eu-west-1"
    "capv/node-image/flatcar.ova" (Or.inr rfl) (by decide) (by decide)
    (by decide) (by decide) (by decide) (by decide)

/-! ## Claim C1 -/

/-- Claim C1 counterexample: during deletion the fan-out is not a
best-effort full sweep.  With `provTwoLoc`, whose delete fails at `l1`
and would succeed at `l2`, the deletion pass calls `Provider.Delete`
only at `l1` and skips `l2`, contradicting the claim that a failure at
one location does not skip the remaining locations during deletion. -/
theorem c1_deletion_sweep_counterexample :
    provTwoLoc.locations = ["l1", "l2"] ∧
    provTwoLoc.deleteFn imgDeleting.name "l2" = none ∧
    (reconcile sysTwoLoc imgDeleting).deleteCalls = ["l1"] ∧
    (reconcile sysTwoLoc imgDeleting).err = true := by
  refine ⟨rfl, rfl, ?_, ?_⟩ <;> rfl

/-- Claim C1 (amended): the per-location fan-out is fail-fast in both
directions.  During deletion, a `Provider.Delete` failure at any
location `l` — after any number of locations that succeeded — means the
pass invokes `Delete` exactly on the locations up to and including `l`,
skips everything after `l`, sets the state to `Error`, and returns the
error.  During creation, a `Provider.Create` failure at any location
`l` — after any number of locations that were already present or
uploaded successfully — means the pass makes its `Create` calls only
within the earlier locations and at `l` itself, skips everything after
`l`, sets the state to `Error`, and returns the error.  Recovery relies
on the retried reconciliation, not on a best-effort sweep. -/
theorem c1_fail_fast_both_passes :
    (∀ (r : Reconciler) (img : NodeImage) (prov : Provider)
        (pre : List String) (l : String) (rest : List String),
      img.deletionRequested = true →
      r.providers img.provider = some prov →
      prov.locations = pre ++ l :: rest →
      (∀ p ∈ pre, prov.deleteFn img.name p = none) →
      prov.deleteFn img.name l = some () →
      (reconcile r img).deleteCalls = pre ++ [l] ∧
      (reconcile r img).err = true ∧
      ∃ img', (reconcile r img).image = some img' ∧
        img'.state = .error) ∧
    (∀ (r : Reconciler) (img : NodeImage) (prov : Provider)
        (pre : List String) (l : String) (rest : List String),
      img.deletionRequested = false →
      ¬(img.state = .awaitingDeletion ∧ img.lastUsedAt.isSome = true) →
      ¬(img.releases = [] ∧ img.state ≠ .unset) →
      ValidURL r.s3Protocol
        (GetURL r.s3Protocol r.s3Bucket r.s3Region
          (r.imageKeyOf img.provider img.name)) = none →
      r.providers img.provider = some prov →
      prov.locations = pre ++ l :: rest →
      ImageAvailable (r.probe
        (GetURL r.s3Protocol r.s3Bucket r.s3Region
          (r.imageKeyOf img.provider img.name))) = true →
      (∀ p ∈ pre, prov.existsFn img.name p = .ok true ∨
        (prov.existsFn img.name p = .ok false ∧
          prov.createFn
            (GetURL r.s3Protocol r.s3Bucket r.s3Region
              (r.imageKeyOf img.provider img.name)) img.name p = none)) →
      prov.existsFn img.name l = .ok false →
      prov.createFn
        (GetURL r.s3Protocol r.s3Bucket r.s3Region
          (r.imageKeyOf img.provider img.name)) img.name l = some () →
      ∃ callsPre, callsPre ⊆ pre ∧
        (reconcile r img).createCalls = callsPre ++ [l] ∧
        (reconcile r img).err = true ∧
        ∃ img', (reconcile r img).image = some img' ∧
          img'.state = .error) := by
  constructor
  · intro r img prov pre l rest hdel hprov hlocs hpre hfail
    unfold reconcile
    rw [if_pos hdel]
    unfold reconcileDeletion
    rw [hprov]
    dsimp only
    rw [hlocs]
    obtain ⟨h1, h2, h3⟩ := deleteLoop_fail_at prov l rest pre img hpre hfail
    rw [if_pos h2]
    exact ⟨h1, rfl, ⟨(deleteLoop prov img (pre ++ l :: rest)).1, rfl, h3⟩⟩
  · intro r img prov pre l rest hdel hawait hflow hurl hprov hlocs hav
      hpre hexl hcrl
    have hrec : reconcile r img =
        reconcileLive r { img with finalizer := true } := by
      unfold reconcile
      rw [if_neg (by simp [hdel])]
    rw [hrec]
    unfold reconcileLive
    dsimp only
    rw [if_neg hawait, if_neg hflow, if_neg (by simp [hurl]), hprov]
    dsimp only
    rw [hlocs]
    obtain ⟨cp, hsub, h1, h2, h3⟩ := createLoop_fail_at r prov
      (GetURL r.s3Protocol r.s3Bucket r.s3Region
        (r.imageKeyOf img.provider img.name)) l rest hav pre
      { img with finalizer := true } hpre hexl hcrl
    exact ⟨cp, hsub, h1, h2,
      ⟨(createLoop r prov
          (GetURL r.s3Protocol r.s3Bucket r.s3Region
            (r.imageKeyOf img.provider img.name))
          { img with finalizer := true } (pre ++ l :: rest)).1, rfl, h3⟩⟩

/-- Witness for the amended C1: both halves at `provFailSecond`, whose
operations succeed at the first location `l1` and fail at the second
location `l2` — the failing location is not the first of the pass. -/
theorem c1_fail_fast_both_passes_witness :
    ((reconcile sysFailSecond imgDeleting).deleteCalls = ["l1"] ++ ["l2"] ∧
      (reconcile sysFailSecond imgDeleting).err = true ∧
      ∃ img', (reconcile sysFailSecond imgDeleting).image = some img' ∧
        img'.state = .error) ∧
    (∃ callsPre, callsPre ⊆ ["l1"] ∧
      (reconcile sysFailSecond imgLive).createCalls = callsPre ++ ["l2"] ∧
      (reconcile sysFailSecond imgLive).err = true ∧
      ∃ img', (reconcile sysFailSecond imgLive).image = some img' ∧
        img'.state = .error) :=
  ⟨c1_fail_fast_both_passes.1 sysFailSecond imgDeleting provFailSecond
      ["l1"] "l2" [] rfl rfl rfl (by decide) (by decide),
   c1_fail_fast_both_passes.2 sysFailSecond imgLive provFailSecond
      ["l1"] "l2" [] rfl (by decide) (by decide) (by decide) rfl rfl
      (by decide)
      (by
        intro p hp
        rw [List.mem_singleton] at hp
        rw [hp]
        exact Or.inr ⟨rfl, rfl⟩)
      rfl rfl⟩

/-! ## Claim C2 -/

/-- Claim C2: for every location for which `Exists` returns `true`,
`Reconcile` never calls `Create` for that location — and since
`reconcile` is a pure function of the record and the environment, this
holds for every invocation alike — and the `CreateProvider` iteration
for such a location sets the state to `Available` without error and
without a `Create` call. -/
theorem c2_exists_skips_create (r : Reconciler) (img : NodeImage)
    (prov : Provider) (loc : String)
    (hprov : r.providers img.provider = some prov)
    (hex : prov.existsFn img.name loc = .ok true) :
    loc ∉ (reconcile r img).createCalls ∧
    (∀ (img0 : NodeImage) (url : String), img0.name = img.name →
      CreateProvider prov img0 url loc =
        ⟨UpdateStatus img0 .available, false, false⟩) := by
  constructor
  · rcases reconcile_createCalls_cases r img with h | ⟨p, hp, hcalls⟩
    · rw [h]
      exact List.not_mem_nil loc
    · rw [hcalls]
      intro hmem
      have hfalse := createLoop_calls_exists_false r p
        (GetURL r.s3Protocol r.s3Bucket r.s3Region
          (r.imageKeyOf img.provider img.name))
        p.locations { img with finalizer := true } loc hmem
      have hpp : p = prov := by
        have := hp.symm.trans hprov
        exact Option.some.inj this
      rw [hpp] at hfalse
      simp only at hfalse
      rw [hex] at hfalse
      simp at hfalse
  · intro img0 url hname
    unfold CreateProvider
    rw [hname, hex]

/-- Witness for C2: with `provExists` (lookup reports present) the
reconcile pass makes no `Create` call and the per-location iteration
reports `Available`. -/
theorem c2_exists_skips_create_witness :
    "l1" ∉ (reconcile sysExists imgLive).createCalls ∧
    CreateProvider provExists imgLive "u" "l1" =
      ⟨UpdateStatus imgLive .available, false, false⟩ :=
  ⟨(c2_exists_skips_create sysExists imgLive provExists "l1" rfl rfl).1,
   (c2_exists_skips_create sysExists imgLive provExists "l1" rfl rfl).2
     imgLive "u" rfl⟩

/-! ## Claim C3 -/

/-- Claim C3: retention policy.  For an unreferenced image past the
never-reconciled sentinel: with `retentionPeriod = 0` (and no stale
`last-used` mark, which the controller never leaves behind with zero
retention) the record is deleted within the same pass; with
`retentionPeriod = D > 0` the first pass marks `AwaitingDeletion`,
stamps `last-used := now` and requeues after `D` instead of deleting;
while `AwaitingDeletion` with mark `t`, the record is deleted in a pass
exactly when `now > t + D` — hence never before `D` has elapsed — and a
non-deleting pass requeues for exactly the remaining time, so a pass at
or after expiry occurs and deletes the still-unreferenced record. -/
theorem c3_retention_policy (r : Reconciler) (img : NodeImage)
    (hdel : img.deletionRequested = false)
    (hrel : img.releases = [])
    (hst : img.state ≠ .unset) :
    (r.imageRetentionPeriod = 0 → img.lastUsedAt = none →
      (reconcile r img).image = none) ∧
    (0 < r.imageRetentionPeriod → img.lastUsedAt = none →
      (reconcile r img).image =
        some (UpdateStatus
          { img with finalizer := true, lastUsedAt := some r.now }
          .awaitingDeletion) ∧
      (reconcile r img).requeueAfter = some r.imageRetentionPeriod) ∧
    (∀ t, img.lastUsedAt = some t → img.state = .awaitingDeletion →
      ((reconcile r img).image = none ↔
        t + r.imageRetentionPeriod < r.now)) ∧
    (∀ t, img.lastUsedAt = some t → img.state = .awaitingDeletion →
      ¬ t + r.imageRetentionPeriod < r.now →
      (reconcile r img).requeueAfter =
        some (t + r.imageRetentionPeriod - r.now)) := by
  have hrec : reconcile r img = reconcileLive r { img with finalizer := true } := by
    unfold reconcile
    rw [if_neg (by simp [hdel])]
  refine ⟨?_, ?_, ?_, ?_⟩
  · intro hr0 hnone
    rw [hrec]
    simp [reconcileLive, hrel, hst, hnone, hr0]
  · intro hpos hnone
    rw [hrec]
    constructor
    · simp [reconcileLive, hrel, hst, hnone, hpos]
    · simp [reconcileLive, hrel, hst, hnone, hpos]
  · intro t hsome hstAD
    rw [hrec]
    by_cases hexp : t + r.imageRetentionPeriod < r.now
    · simp [reconcileLive, hsome, hstAD, hexp]
    · simp [reconcileLive, hsome, hstAD, hexp]
  · intro t hsome hstAD hexp
    rw [hrec]
    simp [reconcileLive, hsome, hstAD, hexp]

/-- Witness for C3: immediate deletion at zero retention for the
concrete unreferenced record, and the no-deletion-before-expiry
characterization for the concrete awaiting record at `now = 100`,
`t = 5`, `D = 3600`. -/
theorem c3_retention_policy_witness :
    (reconcile sysTwoLoc imgUnref).image = none ∧
    ((reconcile sysRetain imgAwaiting).image = none ↔ 5 + 3600 < 100) :=
  ⟨(c3_retention_policy sysTwoLoc imgUnref rfl rfl (by decide)).1 rfl rfl,
   (c3_retention_policy sysRetain imgAwaiting rfl rfl (by decide)).2.2.1
     5 rfl rfl⟩

/-! ## Claim C4 -/

/-- Claim C4: a record whose state is the never-reconciled empty
sentinel is neither deleted nor marked `AwaitingDeletion` by a
reconcile pass, however its releases set looks: the empty-releases
deletion branch requires a non-empty state. -/
theorem c4_never_reconciled_guard (r : Reconciler) (img : NodeImage)
    (hdel : img.deletionRequested = false) (hst : img.state = .unset) :
    (reconcile r img).image ≠ none ∧
    (∀ img', (reconcile r img).image = some img' →
      img'.state ≠ .awaitingDeletion) := by
  have hrec : reconcile r img = reconcileLive r { img with finalizer := true } := by
    unfold reconcile
    rw [if_neg (by simp [hdel])]
  rw [hrec]
  unfold reconcileLive
  dsimp only
  rw [if_neg (by simp [hst]), if_neg (by simp [hst])]
  split
  · refine ⟨by simp, ?_⟩
    intro img' h
    rw [Option.some.injEq] at h
    rw [← h]
    simp [hst]
  · cases hp : r.providers img.provider with
    | none =>
      refine ⟨by simp, ?_⟩
      intro img' h
      rw [Option.some.injEq] at h
      rw [← h]
      simp
    | some p =>
      refine ⟨by simp, ?_⟩
      intro img' h
      rw [Option.some.injEq] at h
      rw [← h]
      exact createLoop_state_ne_awaiting r p _ p.locations _ (by simp [hst])

/-- Witness for C4 at the concrete fresh record. -/
theorem c4_never_reconciled_guard_witness :
    (reconcile sysTwoLoc imgFresh).image ≠ none :=
  (c4_never_reconciled_guard sysTwoLoc imgFresh rfl rfl).1

/-! ## Claim C8 -/

/-- Claim C8: when the source-artifact probe fails or returns a non-2xx
status, the reconcile pass sets the state to `Missing`, performs no
`Provider.Create` call, and returns the fixed default requeue delay
with a nil error. -/
theorem c8_source_missing_requeue (r : Reconciler) (img : NodeImage)
    (prov : Provider) (l : String) (rest : List String)
    (hdel : img.deletionRequested = false)
    (hawait : ¬(img.state = .awaitingDeletion ∧ img.lastUsedAt.isSome = true))
    (hflow : ¬(img.releases = [] ∧ img.state ≠ .unset))
    (hurl : ValidURL r.s3Protocol
      (GetURL r.s3Protocol r.s3Bucket r.s3Region
        (r.imageKeyOf img.provider img.name)) = none)
    (hprov : r.providers img.provider = some prov)
    (hlocs : prov.locations = l :: rest)
    (hprobe : ImageAvailable (r.probe
      (GetURL r.s3Protocol r.s3Bucket r.s3Region
        (r.imageKeyOf img.provider img.name))) = false) :
    (reconcile r img).image =
      some (UpdateStatus { img with finalizer := true } .missing) ∧
    (reconcile r img).createCalls = [] ∧
    (reconcile r img).requeueAfter = some defaultRequeueAfter ∧
    (reconcile r img).err = false := by
  have hrec : reconcile r img = reconcileLive r { img with finalizer := true } := by
    unfold reconcile
    rw [if_neg (by simp [hdel])]
  rw [hrec]
  unfold reconcileLive
  dsimp only
  rw [if_neg hawait, if_neg hflow, if_neg (by simp [hurl]), hprov]
  dsimp only
  rw [hlocs]
  unfold createLoop
  rw [if_neg (by simp [hprobe])]
  exact ⟨rfl, rfl, rfl, rfl⟩

/-- Witness for C8: the concrete system whose probe answers 404. -/
theorem c8_source_missing_requeue_witness :
    (reconcile sysProbeFail imgLive).image =
      some (UpdateStatus { imgLive with finalizer := true } .missing) ∧
    (reconcile sysProbeFail imgLive).createCalls = [] ∧
    (reconcile sysProbeFail imgLive).requeueAfter =
      some defaultRequeueAfter ∧
    (reconcile sysProbeFail imgLive).err = false :=
  c8_source_missing_requeue sysProbeFail imgLive provTwoLoc "l1" ["l2"]
    rfl (by decide) (by decide) (by decide) rfl rfl (by decide)

/-! ## Claim C9 -/

/-- Claim C9 counterexample: the `last-used` iff-invariant is broken by
the finalizer-driven deletion pass.  `imgRetainDel` satisfies the
invariant (`AwaitingDeletion`, positive retention, mark set); its
deletion pass fails at `l1`, leaving a reachable record in state
`Error` that still carries the mark — a record with `last-used` set
outside `AwaitingDeletion`. -/
theorem c9_lastused_counterexample :
    lastUsedInv sysRetain imgRetainDel ∧
    (reconcile sysRetain imgRetainDel).image = some imgRetainDelAfter ∧
    imgRetainDelAfter.lastUsedAt = some 0 ∧
    imgRetainDelAfter.state = .error ∧
    ¬ lastUsedInv sysRetain imgRetainDelAfter := by
  decide

/-- Claim C9 (amended): for records not undergoing finalizer deletion,
the invariant "`last-used` is set iff the image is in
`AwaitingDeletion` with a positive retention period" is preserved by
the reconcile pass, by adding a reference, and by removing a reference;
during finalizer-driven deletion the mark may remain set while the
state passes through `Deleting`/`Deleted`/`Error`. -/
theorem c9_lastused_invariant_preserved :
    (∀ (r : Reconciler) (img img' : NodeImage),
      img.deletionRequested = false → lastUsedInv r img →
      (reconcile r img).image = some img' → lastUsedInv r img') ∧
    (∀ (r : Reconciler) (img : NodeImage) (rel : String),
      lastUsedInv r img →
      lastUsedInv r (AddReleaseToNodeImageStatus rel img)) ∧
    (∀ (r : Reconciler) (img img' : NodeImage) (rel : String),
      lastUsedInv r img → RemoveImage rel (some img) = some img' →
      lastUsedInv r img') := by
  refine ⟨?_, ?_, ?_⟩
  · intro r img img' hdel hinv hsome
    have hrec : reconcile r img = reconcileLive r { img with finalizer := true } := by
      unfold reconcile
      rw [if_neg (by simp [hdel])]
    rw [hrec] at hsome
    unfold reconcileLive at hsome
    dsimp only at hsome
    by_cases hb1 : img.state = .awaitingDeletion ∧ img.lastUsedAt.isSome = true
    · rw [if_pos hb1] at hsome
      split at hsome
      · exact absurd hsome (by simp)
      · rw [Option.some.injEq] at hsome
        rw [← hsome]
        unfold lastUsedInv at hinv ⊢
        simpa using hinv
    · rw [if_neg hb1] at hsome
      have hnone : img.lastUsedAt = none := by
        cases hl : img.lastUsedAt with
        | none => rfl
        | some t =>
          have hAD := hinv.mp (by rw [hl]; simp)
          exact absurd ⟨hAD.1, by rw [hl]; rfl⟩ hb1
      by_cases hb2 : img.releases = [] ∧ img.state ≠ .unset
      · rw [if_pos hb2] at hsome
        by_cases hp : 0 < r.imageRetentionPeriod
        · rw [if_pos hp] at hsome
          rw [Option.some.injEq] at hsome
          rw [← hsome]
          unfold lastUsedInv
          simp [hp]
        · rw [if_neg hp] at hsome
          exact absurd hsome (by simp)
      · rw [if_neg hb2] at hsome
        split at hsome
        · rw [Option.some.injEq] at hsome
          rw [← hsome]
          unfold lastUsedInv at hinv ⊢
          simpa using hinv
        · split at hsome
          · rw [Option.some.injEq] at hsome
            rw [← hsome]
            unfold lastUsedInv
            simp [hnone]
          · rw [Option.some.injEq] at hsome
            rw [← hsome]
            unfold lastUsedInv
            rw [createLoop_lastUsedAt]
            dsimp only
            rw [hnone]
            simp only [ne_eq, not_true_eq_false, false_iff, not_and]
            intro hAD
            by_cases hp : 0 < r.imageRetentionPeriod
            · have hnAD : img.state ≠ .awaitingDeletion := by
                intro hcon
                have hinv' := hinv
                unfold lastUsedInv at hinv'
                rw [hnone, hcon] at hinv'
                simp [hp] at hinv'
              exact absurd hAD
                (createLoop_state_ne_awaiting _ _ _ _ _ (by simpa using hnAD))
            · intro hcon
              exact hp hcon
  · intro r img rel hinv
    unfold AddReleaseToNodeImageStatus
    by_cases hmem : rel ∈ img.releases
    · rw [if_pos hmem]
      exact hinv
    · rw [if_neg hmem]
      dsimp only
      by_cases hstate : img.state = .unset ∨ img.state = .awaitingDeletion
      · rw [if_pos hstate]
        unfold lastUsedInv
        simp
      · rw [if_neg hstate]
        unfold lastUsedInv at hinv ⊢
        simpa using hinv
  · intro r img img' rel hinv hsome
    unfold RemoveImage at hsome
    dsimp only at hsome
    split at hsome
    · rw [Option.some.injEq] at hsome
      rw [← hsome]
      unfold lastUsedInv at hinv ⊢
      simpa using hinv
    · exact absurd hsome (by simp)

/-- Witness for the amended C9: all three operations at concrete
inputs satisfying the invariant. -/
theorem c9_lastused_invariant_preserved_witness :
    lastUsedInv sysRetain
      (AddReleaseToNodeImageStatus "v2.0.0" imgAwaiting) ∧
    lastUsedInv sysRetain { imgTwoRefs with
      releases := imgTwoRefs.releases.erase "v1.0.0" } :=
  ⟨c9_lastused_invariant_preserved.2.1 sysRetain imgAwaiting "v2.0.0"
      (by decide),
   c9_lastused_invariant_preserved.2.2 sysRetain imgTwoRefs
      { imgTwoRefs with releases := imgTwoRefs.releases.erase "v1.0.0" }
      "v1.0.0" (by decide) (by decide)⟩

end IDO
